import Mathlib

/-!
Verification of the moneta_streamlit query/aggregation core.

This file is a shallow embedding, in Lean 4, of the multi-source auction
query/aggregation layer of the repository:

* `auction_base.py`   — `AuctionBase.improve_search_query` (search normalizer);
* `adalex_auction.py` — `AdalexAuction` (directory-backed source adapter);
* `aurora_auction.py` — `AuroraAuction` (URL-backed source adapter with
  catalogue-filter support);
* `auction_factory.py` — `AuctionFactory` (aggregator: fan-out, merge,
  global re-sort, re-pagination).

An SQLite table is embedded as a Lean list of rows in stored (rowid) order;
a query's WHERE clause becomes a Boolean predicate on rows, `LIMIT n OFFSET k`
becomes `(·.drop k).take n`.  A missing database file (`get_connection()`
returning `None`) is an `Option.none` table.  Python exceptions that escape the
embedded operations (`TypeError` from an unexpected keyword argument,
`sqlite3.OperationalError` from a reference to a missing column) are made
explicit with a `PyResult` type.  `pandas.sort_values` is embedded as a
comparison sort with the `na_position='last'` null policy; no theorem below
depends on the order of ties, which pandas' default quicksort does not fix.

`redkie_monety_auction.py` is imported by `auction_factory.py` but is not part
of the available sources; its adapter is modelled from the spec (see the
`RedkieMonetyAuction` namespace below).
-/

namespace Moneta

/-! ### Python / SQLite string primitives

All character-level operations are defined by structural recursion on
`List Char` so that every definition evaluates inside the kernel.
-/

/-- Model of CPython `str.lower` on a single character, covering the ASCII
range and the Cyrillic range actually used by this application's data
(`А`–`Я` U+0410–U+042F and `Ё` U+0401).  Full Unicode case mapping is out of
scope; no claim depends on characters outside these ranges. -/
def pyCharLower (c : Char) : Char :=
  if 'A' ≤ c ∧ c ≤ 'Z' then Char.ofNat (c.toNat + 32)
  else if 'А' ≤ c ∧ c ≤ 'Я' then Char.ofNat (c.toNat + 32)
  else if c = 'Ё' then 'ё'
  else c

/-- Model of CPython `str.lower`. -/
def pyLower (s : String) : String := ⟨s.data.map pyCharLower⟩

/-- Model of SQLite's built-in `LOWER`, which folds ASCII letters only. -/
def sqliteLowerChar (c : Char) : Char :=
  if 'A' ≤ c ∧ c ≤ 'Z' then Char.ofNat (c.toNat + 32) else c

/-- Model of SQLite `LOWER(s)`. -/
def sqliteLower (s : String) : String := ⟨s.data.map sqliteLowerChar⟩

/-- `chersInfix pat s` holds when `pat` occurs as a contiguous run inside `s`. -/
def chersInfix (pat : List Char) : List Char → Bool
  | [] => pat.isEmpty
  | c :: rest => pat.isPrefixOf (c :: rest) || chersInfix pat rest

/-- Model of the SQL condition `LOWER(COALESCE(field, '')) LIKE '%word%'` as the
adapters emit it.  `word` comes from `improve_search_query`, so it is already
lowercase and contains no `%`; the `%`/`_` LIKE metacharacters inside a token
are not modelled, and SQLite LIKE's ASCII case-insensitivity is a no-op here
because both sides are already ASCII-lowercased. -/
def sqlLikeContains (field : Option String) (word : String) : Bool :=
  chersInfix word.data (sqliteLower (field.getD "")).data

/-- Model of CPython `str.split()` with no separator argument: split on runs of
whitespace, producing no empty tokens. -/
def pySplitWsAux : List Char → List Char → List (List Char)
  | [], acc => if acc.isEmpty then [] else [acc.reverse]
  | c :: rest, acc =>
    if c.isWhitespace then
      if acc.isEmpty then pySplitWsAux rest [] else acc.reverse :: pySplitWsAux rest []
    else pySplitWsAux rest (c :: acc)

/-- Model of CPython `str.split()` (whitespace mode). -/
def pySplitWs (s : String) : List String := (pySplitWsAux s.data []).map String.mk

/-- `AuctionBase.improve_search_query` (`auction_base.py:66-78`), duplicated
verbatim as a free function in `app.py:144-156`:
```
if not query: return []
words = [word.strip().lower() for word in query.split() if len(word.strip()) >= 2]
if not words: return []
return words
```
`word.strip()` is a no-op on the output of `str.split()`. -/
def improve_search_query (query : String) : List String :=
  if query = "" then []
  else if (((pySplitWs query).filter (fun w => 2 ≤ w.length)).map pyLower).isEmpty then []
  else ((pySplitWs query).filter (fun w => 2 ≤ w.length)).map pyLower

/-! ### Data model

One `Lot` is one row of a source's `lots` table.  Column values are `Option`s:
`none` is SQL `NULL`.  The `catalogue_*` columns vary per source, so they are
kept as an association list of column name to (non-NULL) value; the set of
`catalogue_*` columns present in a source's schema is carried by the table. -/

structure Lot where
  title : Option String
  description : Option String
  year : Option Int
  metal : Option String
  category : Option String
  close_date : Option String
  final_price_rub : Option Int
  final_price_usd : Option Int
  final_price_eur : Option Int
  image_dir : Option String
  image_url : Option String
  cats : List (String × String)
deriving DecidableEq, Repr

/-- A row with every column NULL; concrete rows below are built from it. -/
def blankLot : Lot :=
  ⟨none, none, none, none, none, none, none, none, none, none, none, []⟩

/-- A source's `lots` table: the rows in stored (rowid) order, plus the list of
`catalogue_*` columns present in the schema (referencing any other
`catalogue_*` column raises `sqlite3.OperationalError`). -/
structure Table where
  catCols : List String
  rows : List Lot
deriving DecidableEq, Repr

/-- Python exceptions that can escape the embedded operations. -/
inductive PyError where
  /-- `TypeError: got an unexpected keyword argument` -/
  | typeError : PyError
  /-- `sqlite3.OperationalError: no such column` -/
  | operationalError : PyError
deriving DecidableEq, Repr

/-- Result of running a piece of Python code: a value, or an uncaught
exception. -/
inductive PyResult (α : Type) : Type where
  | ok : α → PyResult α
  | exn : PyError → PyResult α
deriving DecidableEq, Repr

def PyResult.map (f : α → β) : PyResult α → PyResult β
  | .ok a => .ok (f a)
  | .exn e => .exn e

/-- Python truthiness of an optional string: `None` and `''` are falsy. -/
def truthyStr : Option String → Bool
  | none => false
  | some s => s ≠ ""

/-- `LIMIT ? OFFSET ?` is appended only when a limit is supplied
(`limit=None` means every matching row, unpaginated; the offset is then
ignored, exactly as in the adapters' query construction). -/
def paginate (rows : List Lot) : Option Nat → Nat → List Lot
  | none, _ => rows
  | some n, off => (rows.drop off).take n

/-! ### The WHERE clause shared by the adapters

`AdalexAuction.get_filtered_data` / `get_total_count` and the
non-catalogue branch of `AuroraAuction.get_filtered_data` / `get_total_count`
build this SQL text identically (`year = ?`, `metal IN (...)`,
`category IN (...)`, then per-token `LOWER(COALESCE(title,'')) LIKE ?`
conjunctions for the title and, separately, the description).  It is therefore
defined once and referenced from each embedded method. -/
def regularWhere (year : Option Int) (metals categories : List String)
    (search_title search_description : Option String) (lot : Lot) : Bool :=
  (match year with
   | none => true
   | some y => lot.year == some y) &&
  (if metals.isEmpty then true
   else match lot.metal with
     | some m => metals.contains m
     | none => false) &&
  (if categories.isEmpty then true
   else match lot.category with
     | some c => categories.contains c
     | none => false) &&
  (match search_title with
   | none => true
   | some s =>
     if s = "" then true
     else
       let ws := improve_search_query s
       if ws.isEmpty then true else ws.all (fun w => sqlLikeContains lot.title w)) &&
  (match search_description with
   | none => true
   | some s =>
     if s = "" then true
     else
       let ws := improve_search_query s
       if ws.isEmpty then true else ws.all (fun w => sqlLikeContains lot.description w))

/-! ### `AdalexAuction` (`adalex_auction.py`) -/

namespace AdalexAuction

/-- `AdalexAuction.get_filtered_data` (`adalex_auction.py:13-77`).  The
signature has no `catalogue_type`/`catalogue_number` parameters.  `currency`,
`sort_by` and `sort_order` are accepted and never used (no ORDER BY is
emitted). -/
def get_filtered_data (db : Option (List Lot)) (year : Option Int)
    (metals categories : List String)
    (search_title search_description : Option String)
    (currency sort_by sort_order : String)
    (limit : Option Nat) (offset : Nat) : List Lot :=
  match db with
  | none => []
  | some rows =>
    paginate (rows.filter (regularWhere year metals categories search_title search_description))
      limit offset

/-- `AdalexAuction.get_total_count` (`adalex_auction.py:79-130`): the same
WHERE clause, `SELECT COUNT(*)`, no pagination. -/
def get_total_count (db : Option (List Lot)) (year : Option Int)
    (metals categories : List String)
    (search_title search_description : Option String) : Nat :=
  match db with
  | none => 0
  | some rows =>
    (rows.filter (regularWhere year metals categories search_title search_description)).length

end AdalexAuction

/-! ### `AuroraAuction` (`aurora_auction.py`) -/

namespace AuroraAuction

/-- The catalogue equality condition `catalogue_<type> = ?`: SQL `=` against a
NULL column value never matches. -/
def catalogueMatch (col catalogue_number : String) (lot : Lot) : Bool :=
  lot.cats.lookup col == some catalogue_number

/-- `AuroraAuction.get_filtered_data` (`aurora_auction.py:12-90`).  When both
`catalogue_type` and `catalogue_number` are truthy, the query filters only on
the column `catalogue_{catalogue_type.lower()}` and every other filter is
skipped; if that column is not in the schema, `sqlite3.OperationalError`
escapes.  The `lot_url`→`url` dataframe column renaming at the end of the
Python method is schema bookkeeping with no effect on the row sequence and is
not modelled. -/
def get_filtered_data (db : Option Table) (year : Option Int)
    (metals categories : List String)
    (search_title search_description : Option String)
    (catalogue_type catalogue_number : Option String)
    (currency sort_by sort_order : String)
    (limit : Option Nat) (offset : Nat) : PyResult (List Lot) :=
  match db with
  | none => .ok []
  | some t =>
    if truthyStr catalogue_type && truthyStr catalogue_number then
      let col := "catalogue_" ++ pyLower (catalogue_type.getD "")
      if t.catCols.contains col then
        .ok (paginate (t.rows.filter (catalogueMatch col (catalogue_number.getD ""))) limit offset)
      else .exn .operationalError
    else
      .ok (paginate
        (t.rows.filter (regularWhere year metals categories search_title search_description))
        limit offset)

/-- `AuroraAuction.get_total_count` (`aurora_auction.py:92-152`): the same
filter construction, `SELECT COUNT(*)`, no pagination. -/
def get_total_count (db : Option Table) (year : Option Int)
    (metals categories : List String)
    (search_title search_description : Option String)
    (catalogue_type catalogue_number : Option String) : PyResult Nat :=
  match db with
  | none => .ok 0
  | some t =>
    if truthyStr catalogue_type && truthyStr catalogue_number then
      let col := "catalogue_" ++ pyLower (catalogue_type.getD "")
      if t.catCols.contains col then
        .ok (t.rows.filter (catalogueMatch col (catalogue_number.getD ""))).length
      else .exn .operationalError
    else
      .ok (t.rows.filter
        (regularWhere year metals categories search_title search_description)).length

/-- `AuroraAuction.get_lot_images` (`aurora_auction.py:170-177`): the stored
`image_url`, as a one-element list, or `[]` when the field is falsy. -/
def get_lot_images (lot : Lot) : List String :=
  match lot.image_url with
  | none => []
  | some u => if u = "" then [] else [u]

end AuroraAuction

/-! ### `RedkieMonetyAuction`

`redkie_monety_auction.py` is imported and instantiated by
`auction_factory.py` but its source file is not among the available sources. -/

namespace RedkieMonetyAuction

/-- Modelled from the spec: the source file `redkie_monety_auction.py` is
missing.  Per §4.2 the adapters expose one uniform interface (filtered query
with the catalogue pair for sources that support it, count with the identical
predicate), and the factory forwards the catalogue keywords to this adapter,
so it is modelled with the same query semantics as `AuroraAuction`, over its
own table. -/
def get_filtered_data : Option Table → Option Int → List String → List String →
    Option String → Option String → Option String → Option String →
    String → String → String → Option Nat → Nat → PyResult (List Lot) :=
  AuroraAuction.get_filtered_data

/-- Modelled from the spec: count with the identical predicate (see
`RedkieMonetyAuction.get_filtered_data`). -/
def get_total_count : Option Table → Option Int → List String → List String →
    Option String → Option String → Option String → Option String → PyResult Nat :=
  AuroraAuction.get_total_count

end RedkieMonetyAuction

/-! ### Local filesystem model for `AdalexAuction.get_lot_images`

A read-only snapshot of the directories that exist: each entry maps a
directory path to the names of the plain files it holds.  `os.path.isdir`
is a successful lookup. -/

abbrev Fs := List (String × List String)

/-- Code-point lexicographic comparison of character lists, the order in which
both Python (`sorted` on paths/strings) and this embedding compare strings. -/
def chersLe : List Char → List Char → Bool
  | [], _ => true
  | _ :: _, [] => false
  | a :: s, b :: t =>
    if a.toNat < b.toNat then true
    else if b.toNat < a.toNat then false
    else chersLe s t

/-- Code-point lexicographic `≤` on strings. -/
def strLe (a b : String) : Bool := chersLe a.data b.data

/-- Insert into a list sorted by `le`, keeping it sorted. -/
def insertLe (le : α → α → Bool) (a : α) : List α → List α
  | [] => [a]
  | b :: t => if le a b then a :: b :: t else b :: insertLe le a t

/-- Comparison sort (insertion sort).  Models both Python `sorted` and
`pandas.sort_values`; no theorem below depends on the order of ties. -/
def sortLe (le : α → α → Bool) : List α → List α
  | [] => []
  | a :: t => insertLe le a (sortLe le t)

/-- `Path.glob("*.jpg")` filename match: `*` matches any run of characters,
leading dot included (`pathlib` globbing, unlike the `glob` module, has no
hidden-file special case), so a name matches exactly when it has the `.jpg`
suffix. -/
def globJpg (name : String) : Bool :=
  name.endsWith ".jpg"

namespace AdalexAuction

/-- `AdalexAuction.get_lot_images` (`adalex_auction.py:148-159`), identical to
`find_lot_images` in `app.py:159-168`:
```
image_dir = lot_data.get('image_dir')
if not image_dir: return []
if os.path.isdir(image_dir):
    images = list(Path(image_dir).glob("*.jpg"))
    if images: return [str(img) for img in sorted(images)]
return []
```
`sorted` on `Path`s with a common parent directory compares the full path
strings, i.e. sorts the matched filenames lexicographically. -/
def get_lot_images (fs : Fs) (lot : Lot) : List String :=
  match lot.image_dir with
  | none => []
  | some d =>
    if d = "" then []
    else match fs.lookup d with
      | none => []
      | some files =>
        let images := (files.filter globJpg).map (fun n => d ++ "/" ++ n)
        if images.isEmpty then [] else sortLe strLe images

end AdalexAuction

/-! ### `AuctionFactory` (`auction_factory.py`) -/

/-- The factory's construction-time state: one optional backing store per
auction house (`None` = the database file is missing, so
`get_connection()` returns `None`).  Adalex's table carries no catalogue
columns because its adapter never references any. -/
structure Factory where
  adalexDb : Option (List Lot)
  auroraDb : Option Table
  redkieDb : Option Table
deriving DecidableEq, Repr

/-- One combined record: a row tagged with `auction_name`
(`df['auction_name'] = auction_name`). -/
abbrev TaggedLot := Lot × String

namespace AuctionFactory

/-- The keys of `self.auctions` in insertion order
(`auction_factory.py:11-16`). -/
def source_names : List String := ["Adalex", "Aurora", "Redkie Monety"]

/-- Whether `self.auctions.get(name)` yields an adapter whose
`get_connection()` is not `None`. -/
def hasDb (f : Factory) (name : String) : Bool :=
  if name = "Adalex" then f.adalexDb.isSome
  else if name = "Aurora" then f.auroraDb.isSome
  else if name = "Redkie Monety" then f.redkieDb.isSome
  else false

/-- `AuctionFactory._get_available_auctions` (`auction_factory.py:19-25`),
computed once in `__init__` and stored in `self.available_auctions`. -/
def available_auctions (f : Factory) : List String :=
  source_names.filter (hasDb f)

/-- One iteration of the fan-out loop of `get_combined_data`
(`auction_factory.py:67-89`) for a selected name: skip unknown names and
sources whose connection is `None`; otherwise call the adapter's
`get_filtered_data` with `limit=None, offset=0` — passing
`catalogue_type=`/`catalogue_number=` keyword arguments.
`AdalexAuction.get_filtered_data` does not accept those keywords, so the call
on an available Adalex raises `TypeError` before any query runs.  Rows from a
successful call are tagged with the auction name; appending only non-empty
frames (`if not df.empty`) does not change the concatenation and is dropped
here. -/
def fetch_step (f : Factory) (year : Option Int) (metals categories : List String)
    (search_title search_description catalogue_type catalogue_number : Option String)
    (currency : String) (name : String) : PyResult (List TaggedLot) :=
  if name = "Adalex" then
    match f.adalexDb with
    | none => .ok []
    | some _ => .exn .typeError
  else if name = "Aurora" then
    match f.auroraDb with
    | none => .ok []
    | some _ =>
      (AuroraAuction.get_filtered_data f.auroraDb year metals categories
        search_title search_description catalogue_type catalogue_number
        currency "date_recent" "ASC" none 0).map (·.map (fun l => (l, "Aurora")))
  else if name = "Redkie Monety" then
    match f.redkieDb with
    | none => .ok []
    | some _ =>
      (RedkieMonetyAuction.get_filtered_data f.redkieDb year metals categories
        search_title search_description catalogue_type catalogue_number
        currency "date_recent" "ASC" none 0).map (·.map (fun l => (l, "Redkie Monety")))
  else .ok []

/-- Run a step for each selected name, left to right; the first uncaught
exception aborts the whole loop, as in Python. -/
def runSteps (step : String → PyResult β) : List String → PyResult (List β)
  | [] => .ok []
  | n :: rest =>
    match step n with
    | .exn e => .exn e
    | .ok b =>
      match runSteps step rest with
      | .exn e => .exn e
      | .ok bs => .ok (b :: bs)

/-- `NaN`s sort last under `pandas.sort_values` whatever the direction
(`na_position='last'`): compare the key values with `le` when both are
present, otherwise a present key precedes an absent one. -/
def naLastLe (le : α → α → Bool) (key : β → Option α) (a b : β) : Bool :=
  match key a, key b with
  | some x, some y => le x y
  | some _, none => true
  | none, none => true
  | none, some _ => false

/-- Integer `≤` as a Boolean. -/
def intLe (a b : Int) : Bool := a ≤ b

/-- The column `final_price_{currency.lower()}` of a combined record.
The three currencies of the schema are `rub`, `usd`, `eur`; any other
currency names a column no source provides. -/
def final_price_of (currency : String) (t : TaggedLot) : Option Int :=
  let c := pyLower currency
  if c = "rub" then t.1.final_price_rub
  else if c = "usd" then t.1.final_price_usd
  else if c = "eur" then t.1.final_price_eur
  else none

/-- The sort dispatch of `get_combined_data` (`auction_factory.py:97-109`):
six recognized keys, each a `pandas.sort_values` call; any other key leaves
the concatenated frame in per-source arrival order. -/
def sortCombined (sort_by currency : String) (l : List TaggedLot) : List TaggedLot :=
  if sort_by = "price_high" then
    sortLe (naLastLe (fun x y => intLe y x) (final_price_of currency)) l
  else if sort_by = "price_low" then
    sortLe (naLastLe intLe (final_price_of currency)) l
  else if sort_by = "date_recent" then
    sortLe (naLastLe (fun x y => strLe y x) (fun t => t.1.close_date)) l
  else if sort_by = "date_old" then
    sortLe (naLastLe strLe (fun t => t.1.close_date)) l
  else if sort_by = "year_desc" then
    sortLe (naLastLe (fun x y => intLe y x) (fun t => t.1.year)) l
  else if sort_by = "year_asc" then
    sortLe (naLastLe intLe (fun t => t.1.year)) l
  else l

/-- `AuctionFactory.get_combined_data` (`auction_factory.py:51-112`): fetch
every matching row from each selected available source (unpaginated), tag and
concatenate, sort the combined set, then slice
`combined_df.iloc[offset : offset + limit]`.  The early
`if not all_data: return pd.DataFrame()` path coincides with running the
remaining pipeline on the empty concatenation, which is how it is rendered
here. -/
def get_combined_data (f : Factory) (selected : List String) (year : Option Int)
    (metals categories : List String)
    (search_title search_description catalogue_type catalogue_number : Option String)
    (currency sort_by sort_order : String) (limit offset : Nat) :
    PyResult (List TaggedLot) :=
  match runSteps
      (fetch_step f year metals categories search_title search_description
        catalogue_type catalogue_number currency) selected with
  | .exn e => .exn e
  | .ok parts =>
    .ok (((sortCombined sort_by currency parts.flatten).drop offset).take limit)

/-- The combined record set in per-source default order: each selected
available source's matching rows in that source's stored order, concatenated
in selection order, with no global re-sort.  This is the order
`get_combined_data` is left with before its sort dispatch, and the order an
unrecognized sort key falls back to. -/
def combinedDefaultOrder (f : Factory) (selected : List String) (year : Option Int)
    (metals categories : List String)
    (search_title search_description catalogue_type catalogue_number : Option String)
    (currency : String) : PyResult (List TaggedLot) :=
  (runSteps
    (fetch_step f year metals categories search_title search_description
      catalogue_type catalogue_number currency) selected).map List.flatten

/-- One iteration of the loop of `get_combined_total_count`
(`auction_factory.py:114-139`): the same skip conditions, calling the
adapter's `get_total_count` with the catalogue keyword arguments —
which `AdalexAuction.get_total_count` likewise does not accept. -/
def count_step (f : Factory) (year : Option Int) (metals categories : List String)
    (search_title search_description catalogue_type catalogue_number : Option String)
    (name : String) : PyResult Nat :=
  if name = "Adalex" then
    match f.adalexDb with
    | none => .ok 0
    | some _ => .exn .typeError
  else if name = "Aurora" then
    match f.auroraDb with
    | none => .ok 0
    | some _ =>
      AuroraAuction.get_total_count f.auroraDb year metals categories
        search_title search_description catalogue_type catalogue_number
  else if name = "Redkie Monety" then
    match f.redkieDb with
    | none => .ok 0
    | some _ =>
      RedkieMonetyAuction.get_total_count f.redkieDb year metals categories
        search_title search_description catalogue_type catalogue_number
  else .ok 0

/-- `AuctionFactory.get_combined_total_count` (`auction_factory.py:114-139`):
the sum of the selected available sources' counts. -/
def get_combined_total_count (f : Factory) (selected : List String) (year : Option Int)
    (metals categories : List String)
    (search_title search_description catalogue_type catalogue_number : Option String) :
    PyResult Nat :=
  (runSteps
    (count_step f year metals categories search_title search_description
      catalogue_type catalogue_number) selected).map List.sum

end AuctionFactory

/-- A combined page is ordered by an optional sort key under relation `r` with
the nulls-last policy: between two consecutive records, present keys satisfy
`r`, a record with a key never follows one without, and records lacking the
key sit together at the end. -/
def pageOrdered (key : TaggedLot → Option α) (r : α → α → Prop) (page : List TaggedLot) : Prop :=
  page.Chain' (fun a b =>
    match key a, key b with
    | some x, some y => r x y
    | some _, none => True
    | none, none => True
    | none, some _ => False)

/-! ### Helper lemmas: the comparison sort sorts -/

theorem insertLe_perm (le : α → α → Bool) (a : α) (l : List α) :
    List.Perm (insertLe le a l) (a :: l) := by
  induction l with
  | nil => exact List.Perm.refl _
  | cons b t ih =>
    by_cases h : le a b = true
    · simp only [insertLe, if_pos h]
      exact List.Perm.refl _
    · simp only [insertLe, if_neg h]
      exact (ih.cons b).trans (List.Perm.swap a b t)

theorem sortLe_perm (le : α → α → Bool) (l : List α) : List.Perm (sortLe le l) l := by
  induction l with
  | nil => exact List.Perm.refl _
  | cons a t ih => exact (insertLe_perm le a (sortLe le t)).trans (ih.cons a)

theorem length_sortLe (le : α → α → Bool) (l : List α) :
    (sortLe le l).length = l.length :=
  (sortLe_perm le l).length_eq

theorem mem_insertLe {le : α → α → Bool} {a x : α} {l : List α} :
    x ∈ insertLe le a l ↔ x = a ∨ x ∈ l := by
  rw [(insertLe_perm le a l).mem_iff]
  simp

theorem pairwise_insertLe {le : α → α → Bool}
    (total : ∀ a b, le a b = true ∨ le b a = true) {a : α} {l : List α}
    (trans : ∀ x y z, le x y = true → le y z = true → le x z = true)
    (h : l.Pairwise (fun x y => le x y = true)) :
    (insertLe le a l).Pairwise (fun x y => le x y = true) := by
  induction l with
  | nil => simp [insertLe]
  | cons b t ih =>
    rcases List.pairwise_cons.mp h with ⟨hb, ht⟩
    by_cases hab : le a b = true
    · simp only [insertLe, if_pos hab]
      refine List.pairwise_cons.mpr ⟨?_, h⟩
      intro x hx
      rcases List.mem_cons.mp hx with hx | hx
      · rw [hx]; exact hab
      · exact trans a b x hab (hb x hx)
    · simp only [insertLe, if_neg hab]
      refine List.pairwise_cons.mpr ⟨?_, ih ht⟩
      intro x hx
      rcases mem_insertLe.mp hx with hx | hx
      · rw [hx]; exact (total a b).resolve_left hab
      · exact hb x hx

theorem pairwise_sortLe {le : α → α → Bool}
    (total : ∀ a b, le a b = true ∨ le b a = true)
    (trans : ∀ x y z, le x y = true → le y z = true → le x z = true)
    (l : List α) : (sortLe le l).Pairwise (fun x y => le x y = true) := by
  induction l with
  | nil => simp [sortLe]
  | cons a t ih => exact pairwise_insertLe total trans ih

theorem intLe_total (a b : Int) :
    AuctionFactory.intLe a b = true ∨ AuctionFactory.intLe b a = true := by
  simp only [AuctionFactory.intLe, decide_eq_true_eq]
  omega

theorem intLe_trans (a b c : Int) (h₁ : AuctionFactory.intLe a b = true)
    (h₂ : AuctionFactory.intLe b c = true) : AuctionFactory.intLe a c = true := by
  simp only [AuctionFactory.intLe, decide_eq_true_eq] at *
  omega

theorem chersLe_total (a b : List Char) : chersLe a b = true ∨ chersLe b a = true := by
  induction a generalizing b with
  | nil => simp [chersLe]
  | cons x s ih =>
    cases b with
    | nil => simp [chersLe]
    | cons y t =>
      simp only [chersLe]
      rcases Nat.lt_trichotomy x.toNat y.toNat with h | h | h
      · left; simp [h]
      · have h1 : ¬ x.toNat < y.toNat := by omega
        have h2 : ¬ y.toNat < x.toNat := by omega
        simpa [h1, h2] using ih t
      · right; simp [h]

theorem chersLe_trans (a b c : List Char) (h₁ : chersLe a b = true)
    (h₂ : chersLe b c = true) : chersLe a c = true := by
  induction a generalizing b c with
  | nil => simp [chersLe]
  | cons x s ih =>
    cases b with
    | nil => simp [chersLe] at h₁
    | cons y t =>
      cases c with
      | nil => simp [chersLe] at h₂
      | cons z u =>
        simp only [chersLe] at h₁ h₂ ⊢
        by_cases hxy : x.toNat < y.toNat
        · by_cases hyz : y.toNat < z.toNat
          · rw [if_pos (by omega)]
          · by_cases hzy : z.toNat < y.toNat
            · rw [if_neg hyz, if_pos hzy] at h₂
              simp at h₂
            · rw [if_pos (by omega)]
        · by_cases hyx : y.toNat < x.toNat
          · rw [if_neg hxy, if_pos hyx] at h₁
            simp at h₁
          · rw [if_neg hxy, if_neg hyx] at h₁
            by_cases hyz : y.toNat < z.toNat
            · rw [if_pos (by omega)]
            · by_cases hzy : z.toNat < y.toNat
              · rw [if_neg hyz, if_pos hzy] at h₂
                simp at h₂
              · rw [if_neg hyz, if_neg hzy] at h₂
                rw [if_neg (by omega), if_neg (by omega)]
                exact ih t u h₁ h₂

theorem strLe_total (a b : String) : strLe a b = true ∨ strLe b a = true :=
  chersLe_total a.data b.data

theorem strLe_trans (a b c : String) (h₁ : strLe a b = true) (h₂ : strLe b c = true) :
    strLe a c = true :=
  chersLe_trans a.data b.data c.data h₁ h₂

theorem naLastLe_total {le : α → α → Bool} (key : β → Option α)
    (total : ∀ a b, le a b = true ∨ le b a = true) (a b : β) :
    AuctionFactory.naLastLe le key a b = true ∨ AuctionFactory.naLastLe le key b a = true := by
  unfold AuctionFactory.naLastLe
  rcases ka : key a with _ | x <;> rcases kb : key b with _ | y <;> simp
  exact total x y

theorem naLastLe_trans {le : α → α → Bool} (key : β → Option α)
    (trans : ∀ x y z, le x y = true → le y z = true → le x z = true) (a b c : β)
    (h₁ : AuctionFactory.naLastLe le key a b = true)
    (h₂ : AuctionFactory.naLastLe le key b c = true) :
    AuctionFactory.naLastLe le key a c = true := by
  unfold AuctionFactory.naLastLe at h₁ h₂ ⊢
  rcases ka : key a with _ | x <;> rcases kb : key b with _ | y <;>
    rcases kc : key c with _ | z <;> simp_all
  exact trans x y z h₁ h₂

theorem pairwise_naLastLe_sortLe {le : α → α → Bool} (key : TaggedLot → Option α)
    (total : ∀ a b, le a b = true ∨ le b a = true)
    (trans : ∀ x y z, le x y = true → le y z = true → le x z = true)
    (l : List TaggedLot) :
    (sortLe (AuctionFactory.naLastLe le key) l).Pairwise
      (fun a b => AuctionFactory.naLastLe le key a b = true) :=
  pairwise_sortLe (naLastLe_total key total) (naLastLe_trans key trans) l

theorem pageOrdered_of_pairwise {le : α → α → Bool} {r : α → α → Prop}
    (key : TaggedLot → Option α) (imp : ∀ x y, le x y = true → r x y)
    {page : List TaggedLot}
    (h : page.Pairwise (fun a b => AuctionFactory.naLastLe le key a b = true)) :
    pageOrdered key r page := by
  apply List.Pairwise.chain'
  refine h.imp ?_
  intro a b hab
  unfold AuctionFactory.naLastLe at hab
  cases ha : key a <;> cases hb : key b <;> simp [ha, hb] at hab ⊢
  · exact imp _ _ hab

/-- Slicing preserves pairwise order, hence page order. -/
theorem pageOrdered_slice {le : α → α → Bool} {r : α → α → Prop}
    (key : TaggedLot → Option α) (imp : ∀ x y, le x y = true → r x y)
    (l : List TaggedLot) (total : ∀ a b, le a b = true ∨ le b a = true)
    (trans : ∀ x y z, le x y = true → le y z = true → le x z = true)
    (off lim : Nat) :
    pageOrdered key r (((sortLe (AuctionFactory.naLastLe le key) l).drop off).take lim) := by
  apply pageOrdered_of_pairwise key imp
  exact ((pairwise_naLastLe_sortLe key total trans l).sublist
    ((List.take_sublist _ _).trans (List.drop_sublist _ _)))

/-! ### Helper lemmas: count and fetch share one predicate -/

theorem adalex_count_eq_fetch (db : Option (List Lot)) (year : Option Int)
    (metals categories : List String) (st sd : Option String)
    (cur sb so : String) (off : Nat) :
    AdalexAuction.get_total_count db year metals categories st sd
      = (AdalexAuction.get_filtered_data db year metals categories st sd
          cur sb so none off).length := by
  cases db <;> rfl

theorem aurora_count_eq_fetch (db : Option Table) (year : Option Int)
    (metals categories : List String) (st sd ct cn : Option String)
    (cur sb so : String) (off : Nat) :
    AuroraAuction.get_total_count db year metals categories st sd ct cn
      = (AuroraAuction.get_filtered_data db year metals categories st sd ct cn
          cur sb so none off).map List.length := by
  cases db with
  | none => rfl
  | some t =>
    simp only [AuroraAuction.get_total_count, AuroraAuction.get_filtered_data]
    by_cases h : (truthyStr ct && truthyStr cn) = true
    · rw [if_pos h, if_pos h]
      by_cases hc : t.catCols.contains ("catalogue_" ++ pyLower (ct.getD "")) = true
      · rw [if_pos hc, if_pos hc]; rfl
      · rw [if_neg hc, if_neg hc]; rfl
    · rw [if_neg h, if_neg h]; rfl

theorem PyResult.map_map (f : α → β) (g : β → γ) (r : PyResult α) :
    (r.map f).map g = r.map (fun a => g (f a)) := by
  cases r <;> rfl

/-- The count loop body agrees with the fetch loop body composed with
`List.length`, source by source. -/
theorem count_step_eq_fetch (f : Factory) (year : Option Int)
    (metals categories : List String) (st sd ct cn : Option String)
    (cur : String) (name : String) :
    AuctionFactory.count_step f year metals categories st sd ct cn name
      = (AuctionFactory.fetch_step f year metals categories st sd ct cn cur name).map
          List.length := by
  unfold AuctionFactory.count_step AuctionFactory.fetch_step
  by_cases h1 : name = "Adalex"
  · rw [if_pos h1, if_pos h1]
    cases f.adalexDb <;> rfl
  · rw [if_neg h1, if_neg h1]
    by_cases h2 : name = "Aurora"
    · rw [if_pos h2, if_pos h2]
      cases hdb : f.auroraDb with
      | none => rfl
      | some t =>
        rw [aurora_count_eq_fetch (some t) year metals categories st sd ct cn
          cur "date_recent" "ASC" 0, PyResult.map_map]
        cases AuroraAuction.get_filtered_data (some t) year metals categories st sd ct cn
            cur "date_recent" "ASC" none 0 <;> simp [PyResult.map]
    · rw [if_neg h2, if_neg h2]
      by_cases h3 : name = "Redkie Monety"
      · rw [if_pos h3, if_pos h3]
        cases hdb : f.redkieDb with
        | none => rfl
        | some t =>
          rw [show RedkieMonetyAuction.get_total_count = AuroraAuction.get_total_count from rfl,
            show RedkieMonetyAuction.get_filtered_data = AuroraAuction.get_filtered_data from rfl,
            aurora_count_eq_fetch (some t) year metals categories st sd ct cn
              cur "date_recent" "ASC" 0, PyResult.map_map]
          cases AuroraAuction.get_filtered_data (some t) year metals categories st sd ct cn
              cur "date_recent" "ASC" none 0 <;> simp [PyResult.map]
      · rw [if_neg h3, if_neg h3]
        rfl

/-- Pointwise-related step functions run to related results. -/
theorem runSteps_map_rel {β γ : Type} {stepA : String → PyResult β}
    {stepB : String → PyResult γ} (g : β → γ)
    (h : ∀ n, stepB n = (stepA n).map g) (sel : List String) :
    AuctionFactory.runSteps stepB sel
      = (AuctionFactory.runSteps stepA sel).map (List.map g) := by
  induction sel with
  | nil => rfl
  | cons n rest ih =>
    simp only [AuctionFactory.runSteps, h n, ih]
    cases stepA n <;>
      simp only [PyResult.map] <;>
      cases AuctionFactory.runSteps stepA rest <;>
      simp [PyResult.map]

theorem length_sortCombined (sb cur : String) (l : List TaggedLot) :
    (AuctionFactory.sortCombined sb cur l).length = l.length := by
  unfold AuctionFactory.sortCombined
  split_ifs <;> first | rfl | exact length_sortLe _ _

/-- `get_combined_data` is the fetch loop followed by flatten, sort, slice. -/
theorem get_combined_data_eq (f : Factory) (sel : List String) (year : Option Int)
    (metals categories : List String) (st sd ct cn : Option String)
    (cur sb so : String) (lim off : Nat) :
    AuctionFactory.get_combined_data f sel year metals categories st sd ct cn cur sb so lim off
      = ((AuctionFactory.runSteps
            (AuctionFactory.fetch_step f year metals categories st sd ct cn cur) sel).map
          List.flatten).map
          (fun l => ((AuctionFactory.sortCombined sb cur l).drop off).take lim) := by
  unfold AuctionFactory.get_combined_data
  cases AuctionFactory.runSteps
      (AuctionFactory.fetch_step f year metals categories st sd ct cn cur) sel <;> rfl

/-- A source without a backing store contributes nothing to the fetch loop. -/
theorem fetch_step_skip {f : Factory} {B : String}
    (h : AuctionFactory.hasDb f B = false) (year : Option Int)
    (metals categories : List String) (st sd ct cn : Option String) (cur : String) :
    AuctionFactory.fetch_step f year metals categories st sd ct cn cur B = .ok [] := by
  unfold AuctionFactory.hasDb at h
  unfold AuctionFactory.fetch_step
  by_cases h1 : B = "Adalex"
  · rw [if_pos h1]
    rw [if_pos h1] at h
    cases hdb : f.adalexDb
    · rfl
    · rw [hdb] at h; simp at h
  · rw [if_neg h1]
    rw [if_neg h1] at h
    by_cases h2 : B = "Aurora"
    · rw [if_pos h2]
      rw [if_pos h2] at h
      cases hdb : f.auroraDb
      · rfl
      · rw [hdb] at h; simp at h
    · rw [if_neg h2]
      rw [if_neg h2] at h
      by_cases h3 : B = "Redkie Monety"
      · rw [if_pos h3]
        rw [if_pos h3] at h
        cases hdb : f.redkieDb
        · rfl
        · rw [hdb] at h; simp at h
      · rw [if_neg h3]

/-- Removing from the selection a name whose step is a no-op does not change
the flattened fetch result. -/
theorem runSteps_flatten_filter {β : Type} {step : String → PyResult (List β)} {B : String}
    (hB : step B = .ok []) (sel : List String) :
    (AuctionFactory.runSteps step sel).map List.flatten
      = (AuctionFactory.runSteps step (sel.filter (fun n => n ≠ B))).map List.flatten := by
  induction sel with
  | nil => rfl
  | cons n rest ih =>
    by_cases hn : n = B
    · subst hn
      have hf : (n :: rest).filter (fun x => decide (x ≠ n)) = rest.filter (fun x => decide (x ≠ n)) := by
        simp [List.filter_cons]
      simp only [hf]
      simp only [AuctionFactory.runSteps, hB]
      cases hr : AuctionFactory.runSteps step rest with
      | exn e =>
        rw [hr] at ih
        exact ih
      | ok bs =>
        rw [hr] at ih
        simpa [PyResult.map] using ih
    · have hf : (n :: rest).filter (fun x => decide (x ≠ B))
          = n :: rest.filter (fun x => decide (x ≠ B)) := by
        simp [List.filter_cons, hn]
      rw [hf]
      simp only [AuctionFactory.runSteps]
      cases step n with
      | exn e => rfl
      | ok b =>
        cases hr : AuctionFactory.runSteps step rest with
        | exn e =>
          rw [hr] at ih
          cases hr2 : AuctionFactory.runSteps step (rest.filter (fun x => decide (x ≠ B))) with
          | exn e2 =>
            rw [hr2] at ih
            simp only [PyResult.map] at ih ⊢
            injection ih with ih
            rw [ih]
          | ok bs =>
            rw [hr2] at ih
            simp [PyResult.map] at ih
        | ok bs =>
          rw [hr] at ih
          cases hr2 : AuctionFactory.runSteps step (rest.filter (fun x => decide (x ≠ B))) with
          | exn e2 =>
            rw [hr2] at ih
            simp [PyResult.map] at ih
          | ok cs =>
            rw [hr2] at ih
            simp only [PyResult.map] at ih ⊢
            injection ih with ih
            simp [ih]

/-- An unrecognized sort key leaves the combined frame unsorted. -/
theorem sortCombined_unrecognized {sb : String} (cur : String)
    (h1 : sb ≠ "price_high") (h2 : sb ≠ "price_low") (h3 : sb ≠ "date_recent")
    (h4 : sb ≠ "date_old") (h5 : sb ≠ "year_desc") (h6 : sb ≠ "year_asc")
    (l : List TaggedLot) : AuctionFactory.sortCombined sb cur l = l := by
  unfold AuctionFactory.sortCombined
  rw [if_neg h1, if_neg h2, if_neg h3, if_neg h4, if_neg h5, if_neg h6]

/-- Any page `get_combined_data` actually returns is ordered by the comparator
its sort key dispatches to. -/
theorem ok_page_sorted {α : Type} {f : Factory} {sel : List String} {year : Option Int}
    {metals categories : List String} {st sd ct cn : Option String}
    {cur sb so : String} {L O : Nat} {page : List TaggedLot}
    {le : α → α → Bool} {key : TaggedLot → Option α} {r : α → α → Prop}
    (hkey : ∀ l, AuctionFactory.sortCombined sb cur l
      = sortLe (AuctionFactory.naLastLe le key) l)
    (imp : ∀ x y, le x y = true → r x y)
    (total : ∀ a b, le a b = true ∨ le b a = true)
    (trans : ∀ x y z, le x y = true → le y z = true → le x z = true)
    (h : AuctionFactory.get_combined_data f sel year metals categories st sd ct cn
      cur sb so L O = .ok page) :
    pageOrdered key r page := by
  rw [get_combined_data_eq] at h
  cases hr : AuctionFactory.runSteps
      (AuctionFactory.fetch_step f year metals categories st sd ct cn cur) sel with
  | exn e =>
    rw [hr] at h
    simp [PyResult.map] at h
  | ok parts =>
    rw [hr] at h
    simp only [PyResult.map] at h
    injection h with h
    rw [← h, hkey]
    exact pageOrdered_slice key imp _ total trans O L

/-! ### The claims -/

/-- C1: the claim says no public core operation ever raises uncaught, and in
particular that a catalogue pair on a source lacking catalogue support
(Adalex) is caught and treated as "no catalogue filter".  The code does the
opposite: `AuctionFactory.get_combined_data` and `get_combined_total_count`
forward `catalogue_type=`/`catalogue_number=` keyword arguments to every
selected available adapter, and `AdalexAuction.get_filtered_data` /
`get_total_count` do not accept those parameters, so the call raises
`TypeError` which nothing catches.  This theorem evaluates both factory
operations at such an input (Adalex available and selected, catalogue pair
supplied) and shows the uncaught exception. -/
theorem claim_C1_catalogue_on_adalex_raises :
    AuctionFactory.get_combined_data ⟨some [blankLot], none, none⟩ ["Adalex"]
      none [] [] none none (some "bitkin") (some "1") "RUB" "date_recent" "ASC" 50 0
      = PyResult.exn PyError.typeError
  ∧ AuctionFactory.get_combined_total_count ⟨some [blankLot], none, none⟩ ["Adalex"]
      none [] [] none none (some "bitkin") (some "1")
      = PyResult.exn PyError.typeError :=
  ⟨rfl, rfl⟩

/-- C2: for every source adapter and every filter spec, `get_total_count`
equals the number of rows `get_filtered_data` returns with `limit=None` —
count and fetch apply the identical filter predicate (for Aurora and the
spec-modelled Redkie Monety the two agree as whole computations, exceptions
included, so in particular they agree whenever the catalogue filter is
supported). -/
theorem claim_C2_count_matches_fetch :
    (∀ (db : Option (List Lot)) (year : Option Int) (metals categories : List String)
       (st sd : Option String) (cur sb so : String) (off : Nat),
       AdalexAuction.get_total_count db year metals categories st sd
         = (AdalexAuction.get_filtered_data db year metals categories st sd
             cur sb so none off).length)
  ∧ (∀ (db : Option Table) (year : Option Int) (metals categories : List String)
       (st sd ct cn : Option String) (cur sb so : String) (off : Nat),
       AuroraAuction.get_total_count db year metals categories st sd ct cn
         = (AuroraAuction.get_filtered_data db year metals categories st sd ct cn
             cur sb so none off).map List.length)
  ∧ (∀ (db : Option Table) (year : Option Int) (metals categories : List String)
       (st sd ct cn : Option String) (cur sb so : String) (off : Nat),
       RedkieMonetyAuction.get_total_count db year metals categories st sd ct cn
         = (RedkieMonetyAuction.get_filtered_data db year metals categories st sd ct cn
             cur sb so none off).map List.length) :=
  ⟨adalex_count_eq_fetch, aurora_count_eq_fetch, aurora_count_eq_fetch⟩

/-- C3 counterexample: a factory where Adalex and Aurora each hold exactly one
row matching the empty spec (N1 = N2 = 1).  The claim predicts
`get_combined_total_count = 2` and a page of `min(2, 2-0) = 2` records for
`limit=2, offset=0`; the code instead raises `TypeError`, because the factory
forwards catalogue keyword arguments that `AdalexAuction`'s methods do not
accept — even when the catalogue pair is absent. -/
theorem claim_C3_counterexample :
    AdalexAuction.get_total_count (some [blankLot]) none [] [] none none = 1
  ∧ AuroraAuction.get_total_count (some ⟨[], [blankLot]⟩) none [] [] none none none none
      = PyResult.ok 1
  ∧ AuctionFactory.get_combined_total_count ⟨some [blankLot], some ⟨[], [blankLot]⟩, none⟩
      ["Adalex", "Aurora"] none [] [] none none none none
      ≠ PyResult.ok 2
  ∧ (AuctionFactory.get_combined_data ⟨some [blankLot], some ⟨[], [blankLot]⟩, none⟩
      ["Adalex", "Aurora"] none [] [] none none none none
      "RUB" "year_desc" "ASC" 2 0).map List.length
      ≠ PyResult.ok 2 := by
  refine ⟨rfl, rfl, ?_, ?_⟩ <;> decide

/-- C3 amended: the additive aggregation law holds for the selected sources
whose adapters accept the factory's forwarded catalogue keywords — Aurora and
the spec-modelled Redkie Monety (any selection through an available Adalex
instead raises `TypeError`, see the counterexample).  If the two per-source
unpaginated fetches succeed with `N1` and `N2` rows,
`get_combined_total_count` returns `N1+N2`, and for every limit `L` and offset
`O` the combined page holds exactly `min(L, max(0, N1+N2-O))` records
(the subtraction below is truncated ℕ subtraction). -/
theorem claim_C3_amended (f : Factory) (year : Option Int)
    (metals categories : List String) (st sd ct cn : Option String)
    (cur sb so : String) (p1 p2 : List TaggedLot)
    (h1 : AuctionFactory.fetch_step f year metals categories st sd ct cn cur "Aurora"
      = .ok p1)
    (h2 : AuctionFactory.fetch_step f year metals categories st sd ct cn cur "Redkie Monety"
      = .ok p2) :
    AuctionFactory.get_combined_total_count f ["Aurora", "Redkie Monety"]
      year metals categories st sd ct cn = .ok (p1.length + p2.length)
  ∧ ∀ L O, (AuctionFactory.get_combined_data f ["Aurora", "Redkie Monety"]
      year metals categories st sd ct cn cur sb so L O).map List.length
      = .ok (min L (p1.length + p2.length - O)) := by
  have hrun : AuctionFactory.runSteps
      (AuctionFactory.fetch_step f year metals categories st sd ct cn cur)
      ["Aurora", "Redkie Monety"] = .ok [p1, p2] := by
    simp only [AuctionFactory.runSteps, h1, h2]
  constructor
  · unfold AuctionFactory.get_combined_total_count
    rw [runSteps_map_rel List.length
      (fun n => count_step_eq_fetch f year metals categories st sd ct cn cur n)
      ["Aurora", "Redkie Monety"], hrun]
    simp [PyResult.map]
  · intro L O
    rw [get_combined_data_eq, hrun]
    simp only [PyResult.map, List.length_take, List.length_drop, length_sortCombined]
    congr 2
    simp

/-- Witness for C3 amended: Aurora and Redkie Monety each hold one matching
row; the combined count is 2, and with `limit=3, offset=1` the page holds
`min(3, 2-1) = 1` record. -/
theorem claim_C3_amended_witness :
    AuctionFactory.get_combined_total_count
      ⟨none, some ⟨[], [blankLot]⟩, some ⟨[], [blankLot]⟩⟩ ["Aurora", "Redkie Monety"]
      none [] [] none none none none = .ok 2
  ∧ (AuctionFactory.get_combined_data ⟨none, some ⟨[], [blankLot]⟩, some ⟨[], [blankLot]⟩⟩
      ["Aurora", "Redkie Monety"] none [] [] none none none none
      "RUB" "date_recent" "ASC" 3 1).map List.length = .ok (min 3 (1 + 1 - 1)) := by
  have h := claim_C3_amended ⟨none, some ⟨[], [blankLot]⟩, some ⟨[], [blankLot]⟩⟩
    none [] [] none none none none "RUB" "date_recent" "ASC"
    [(blankLot, "Aurora")] [(blankLot, "Redkie Monety")] rfl rfl
  exact ⟨h.1, h.2 3 1⟩

/-- C4: every page `get_combined_data` returns is ordered exactly per the
sort-key table — `price_high`/`price_low` by `final_price_<currency>`
descending/ascending, `date_recent`/`date_old` by close date
descending/ascending, `year_desc`/`year_asc` by year descending/ascending
(NaN keys last in every case) — and every unrecognized sort key falls back to
the source-defined default order: the slice of the per-source rows in each
source's stored order, concatenated in selection order, with no global
re-sort. -/
theorem claim_C4_sort_key_semantics :
    (∀ (f : Factory) (sel : List String) (year : Option Int)
       (metals categories : List String) (st sd ct cn : Option String)
       (cur so : String) (L O : Nat) (page : List TaggedLot),
       AuctionFactory.get_combined_data f sel year metals categories st sd ct cn
         cur "price_high" so L O = .ok page →
       pageOrdered (AuctionFactory.final_price_of cur) (fun x y : Int => y ≤ x) page)
  ∧ (∀ (f : Factory) (sel : List String) (year : Option Int)
       (metals categories : List String) (st sd ct cn : Option String)
       (cur so : String) (L O : Nat) (page : List TaggedLot),
       AuctionFactory.get_combined_data f sel year metals categories st sd ct cn
         cur "price_low" so L O = .ok page →
       pageOrdered (AuctionFactory.final_price_of cur) (fun x y : Int => x ≤ y) page)
  ∧ (∀ (f : Factory) (sel : List String) (year : Option Int)
       (metals categories : List String) (st sd ct cn : Option String)
       (cur so : String) (L O : Nat) (page : List TaggedLot),
       AuctionFactory.get_combined_data f sel year metals categories st sd ct cn
         cur "date_recent" so L O = .ok page →
       pageOrdered (fun t => t.1.close_date) (fun x y : String => strLe y x = true) page)
  ∧ (∀ (f : Factory) (sel : List String) (year : Option Int)
       (metals categories : List String) (st sd ct cn : Option String)
       (cur so : String) (L O : Nat) (page : List TaggedLot),
       AuctionFactory.get_combined_data f sel year metals categories st sd ct cn
         cur "date_old" so L O = .ok page →
       pageOrdered (fun t => t.1.close_date) (fun x y : String => strLe x y = true) page)
  ∧ (∀ (f : Factory) (sel : List String) (year : Option Int)
       (metals categories : List String) (st sd ct cn : Option String)
       (cur so : String) (L O : Nat) (page : List TaggedLot),
       AuctionFactory.get_combined_data f sel year metals categories st sd ct cn
         cur "year_desc" so L O = .ok page →
       pageOrdered (fun t => t.1.year) (fun x y : Int => y ≤ x) page)
  ∧ (∀ (f : Factory) (sel : List String) (year : Option Int)
       (metals categories : List String) (st sd ct cn : Option String)
       (cur so : String) (L O : Nat) (page : List TaggedLot),
       AuctionFactory.get_combined_data f sel year metals categories st sd ct cn
         cur "year_asc" so L O = .ok page →
       pageOrdered (fun t => t.1.year) (fun x y : Int => x ≤ y) page)
  ∧ (∀ (f : Factory) (sel : List String) (year : Option Int)
       (metals categories : List String) (st sd ct cn : Option String)
       (cur sb so : String) (L O : Nat),
       sb ∉ (["price_high", "price_low", "date_recent", "date_old",
              "year_desc", "year_asc"] : List String) →
       AuctionFactory.get_combined_data f sel year metals categories st sd ct cn
         cur sb so L O
         = (AuctionFactory.combinedDefaultOrder f sel year metals categories
             st sd ct cn cur).map (fun l => (l.drop O).take L)) := by
  refine ⟨?_, ?_, ?_, ?_, ?_, ?_, ?_⟩
  · intro f sel year metals categories st sd ct cn cur so L O page h
    refine ok_page_sorted ?_
      (fun x y hxy => by simpa [AuctionFactory.intLe] using hxy)
      (fun a b => intLe_total b a)
      (fun x y z hxy hyz => intLe_trans z y x hyz hxy) h
    intro l
    rfl
  · intro f sel year metals categories st sd ct cn cur so L O page h
    refine ok_page_sorted ?_
      (fun x y hxy => by simpa [AuctionFactory.intLe] using hxy)
      intLe_total intLe_trans h
    intro l
    rfl
  · intro f sel year metals categories st sd ct cn cur so L O page h
    refine ok_page_sorted ?_ (fun x y hxy => hxy)
      (fun a b => strLe_total b a)
      (fun x y z hxy hyz => strLe_trans z y x hyz hxy) h
    intro l
    rfl
  · intro f sel year metals categories st sd ct cn cur so L O page h
    refine ok_page_sorted ?_ (fun x y hxy => hxy)
      strLe_total strLe_trans h
    intro l
    rfl
  · intro f sel year metals categories st sd ct cn cur so L O page h
    refine ok_page_sorted ?_
      (fun x y hxy => by simpa [AuctionFactory.intLe] using hxy)
      (fun a b => intLe_total b a)
      (fun x y z hxy hyz => intLe_trans z y x hyz hxy) h
    intro l
    rfl
  · intro f sel year metals categories st sd ct cn cur so L O page h
    refine ok_page_sorted ?_
      (fun x y hxy => by simpa [AuctionFactory.intLe] using hxy)
      intLe_total intLe_trans h
    intro l
    rfl
  · intro f sel year metals categories st sd ct cn cur sb so L O hnot
    simp only [List.mem_cons, List.not_mem_nil, or_false, not_or] at hnot
    obtain ⟨h1, h2, h3, h4, h5, h6⟩ := hnot
    rw [get_combined_data_eq]
    unfold AuctionFactory.combinedDefaultOrder
    have hfun : (fun l => ((AuctionFactory.sortCombined sb cur l).drop O).take L)
        = (fun l : List TaggedLot => (l.drop O).take L) :=
      funext fun l => by rw [sortCombined_unrecognized cur h1 h2 h3 h4 h5 h6 l]
    rw [hfun]

/-- Witness for C4: a concrete `price_high` page comes back ordered by
`final_price_rub` descending, and a concrete unrecognized key (`"foo"`)
returns the un-re-sorted slice of the per-source default order. -/
theorem claim_C4_witness :
    pageOrdered (AuctionFactory.final_price_of "RUB") (fun x y : Int => y ≤ x)
      [({blankLot with final_price_rub := some 200}, "Aurora"),
       ({blankLot with final_price_rub := some 100}, "Aurora")]
  ∧ AuctionFactory.get_combined_data
      ⟨none, some ⟨[], [{blankLot with final_price_rub := some 100},
        {blankLot with final_price_rub := some 200}]⟩, none⟩
      ["Aurora"] none [] [] none none none none "RUB" "foo" "ASC" 50 0
      = (AuctionFactory.combinedDefaultOrder
          ⟨none, some ⟨[], [{blankLot with final_price_rub := some 100},
            {blankLot with final_price_rub := some 200}]⟩, none⟩
          ["Aurora"] none [] [] none none none none "RUB").map
          (fun l => (l.drop 0).take 50) :=
  ⟨claim_C4_sort_key_semantics.1
      ⟨none, some ⟨[], [{blankLot with final_price_rub := some 100},
        {blankLot with final_price_rub := some 200}]⟩, none⟩
      ["Aurora"] none [] [] none none none none "RUB" "ASC" 50 0
      [({blankLot with final_price_rub := some 200}, "Aurora"),
       ({blankLot with final_price_rub := some 100}, "Aurora")] rfl,
   claim_C4_sort_key_semantics.2.2.2.2.2.2
      ⟨none, some ⟨[], [{blankLot with final_price_rub := some 100},
        {blankLot with final_price_rub := some 200}]⟩, none⟩
      ["Aurora"] none [] [] none none none none "RUB" "foo" "ASC" 50 0 (by decide)⟩

/-- C5: for `sort_by='year_desc'`, in any page `get_combined_data` returns,
every consecutive pair `(a, b)` satisfies `a.year ≥ b.year` when both years
are present, and the fixed null policy is pandas' `na_position='last'`: a
record with a year is never preceded by one without, so null-year records form
the page's tail (this is exactly the `pageOrdered` relation). -/
theorem claim_C5_year_desc_sorted (f : Factory) (sel : List String) (year : Option Int)
    (metals categories : List String) (st sd ct cn : Option String)
    (cur so : String) (L O : Nat) (page : List TaggedLot)
    (h : AuctionFactory.get_combined_data f sel year metals categories st sd ct cn
      cur "year_desc" so L O = .ok page) :
    pageOrdered (fun t => t.1.year) (fun x y : Int => y ≤ x) page := by
  refine ok_page_sorted ?_
    (fun x y hxy => by simpa [AuctionFactory.intLe] using hxy)
    (fun a b => intLe_total b a)
    (fun x y z hxy hyz => intLe_trans z y x hyz hxy) h
  intro l
  rfl

/-- Witness for C5: a concrete `year_desc` page over one source holding years
1700 and 1800 in stored order comes back as 1800 then 1700. -/
theorem claim_C5_witness :
    pageOrdered (fun t => t.1.year) (fun x y : Int => y ≤ x)
      [({blankLot with year := some 1800}, "Aurora"),
       ({blankLot with year := some 1700}, "Aurora")] :=
  claim_C5_year_desc_sorted
    ⟨none, some ⟨[], [{blankLot with year := some 1700},
      {blankLot with year := some 1800}]⟩, none⟩
    ["Aurora"] none [] [] none none none none "RUB" "ASC" 50 0
    [({blankLot with year := some 1800}, "Aurora"),
     ({blankLot with year := some 1700}, "Aurora")] rfl

/-- C6: on Aurora (the catalogue-supporting source in the available code) a
truthy catalogue pair takes absolute priority: `get_filtered_data` and
`get_total_count` give the same result as with every other filter cleared,
and when the catalogue column exists the rows are exactly those passing the
single equality filter on `catalogue_<type.lower()>`. -/
theorem claim_C6_catalogue_suppresses_filters (t : Option Table) (year : Option Int)
    (metals categories : List String) (st sd : Option String) (ct cn : String)
    (cur sb so : String) (lim : Option Nat) (off : Nat)
    (hct : ct ≠ "") (hcn : cn ≠ "") :
    (AuroraAuction.get_filtered_data t year metals categories st sd
        (some ct) (some cn) cur sb so lim off
      = AuroraAuction.get_filtered_data t none [] [] none none
        (some ct) (some cn) cur sb so lim off)
  ∧ (AuroraAuction.get_total_count t year metals categories st sd (some ct) (some cn)
      = AuroraAuction.get_total_count t none [] [] none none (some ct) (some cn))
  ∧ (∀ tab : Table, t = some tab →
      tab.catCols.contains ("catalogue_" ++ pyLower ct) = true →
      AuroraAuction.get_filtered_data t year metals categories st sd
        (some ct) (some cn) cur sb so lim off
        = .ok (paginate (tab.rows.filter
            (AuroraAuction.catalogueMatch ("catalogue_" ++ pyLower ct) cn)) lim off)) := by
  have htr : (truthyStr (some ct) && truthyStr (some cn)) = true := by
    simp [truthyStr, hct, hcn]
  refine ⟨?_, ?_, ?_⟩
  · cases t with
    | none => rfl
    | some tab =>
      simp only [AuroraAuction.get_filtered_data, if_pos htr]
  · cases t with
    | none => rfl
    | some tab =>
      simp only [AuroraAuction.get_total_count, if_pos htr]
  · intro tab htab hcol
    subst htab
    simp only [AuroraAuction.get_filtered_data, if_pos htr, Option.getD_some, if_pos hcol]

/-- Witness for C6: a concrete Aurora table with a `catalogue_bitkin` column;
with the pair (`Bitkin`, `55`) supplied, year/metal/category/text filters that
match nothing are all ignored and the catalogue-matching row is returned. -/
theorem claim_C6_witness :
    (AuroraAuction.get_filtered_data
        (some ⟨["catalogue_bitkin"], [{blankLot with cats := [("catalogue_bitkin", "55")]}]⟩)
        (some 1700) ["Silver"] ["Coin"] (some "орел") none
        (some "Bitkin") (some "55") "RUB" "date_recent" "ASC" (some 50) 0
      = AuroraAuction.get_filtered_data
        (some ⟨["catalogue_bitkin"], [{blankLot with cats := [("catalogue_bitkin", "55")]}]⟩)
        none [] [] none none (some "Bitkin") (some "55") "RUB" "date_recent" "ASC" (some 50) 0)
  ∧ AuroraAuction.get_filtered_data
      (some ⟨["catalogue_bitkin"], [{blankLot with cats := [("catalogue_bitkin", "55")]}]⟩)
      (some 1700) ["Silver"] ["Coin"] (some "орел") none
      (some "Bitkin") (some "55") "RUB" "date_recent" "ASC" (some 50) 0
      = .ok (paginate (([{blankLot with cats := [("catalogue_bitkin", "55")]}] : List Lot).filter
          (AuroraAuction.catalogueMatch ("catalogue_" ++ pyLower "Bitkin") "55")) (some 50) 0) :=
  ⟨(claim_C6_catalogue_suppresses_filters
      (some ⟨["catalogue_bitkin"], [{blankLot with cats := [("catalogue_bitkin", "55")]}]⟩)
      (some 1700) ["Silver"] ["Coin"] (some "орел") none "Bitkin" "55"
      "RUB" "date_recent" "ASC" (some 50) 0 (by decide) (by decide)).1,
   (claim_C6_catalogue_suppresses_filters
      (some ⟨["catalogue_bitkin"], [{blankLot with cats := [("catalogue_bitkin", "55")]}]⟩)
      (some 1700) ["Silver"] ["Coin"] (some "орел") none "Bitkin" "55"
      "RUB" "date_recent" "ASC" (some 50) 0 (by decide) (by decide)).2.2
      ⟨["catalogue_bitkin"], [{blankLot with cats := [("catalogue_bitkin", "55")]}]⟩
      rfl (by decide)⟩

/-- C7: if a source's backing store is missing at construction time, the list
`available_auctions` (computed once in `__init__` from the same static state)
excludes it, and for every spec, `get_combined_data` over a selection
including that source returns exactly what it returns with the source removed
from the selection. -/
theorem claim_C7_unavailable_source_inert (f : Factory) (B : String)
    (h : AuctionFactory.hasDb f B = false) :
    B ∉ AuctionFactory.available_auctions f
  ∧ ∀ (sel : List String) (year : Option Int) (metals categories : List String)
      (st sd ct cn : Option String) (cur sb so : String) (L O : Nat),
      AuctionFactory.get_combined_data f sel year metals categories st sd ct cn
        cur sb so L O
        = AuctionFactory.get_combined_data f (sel.filter (fun n => n ≠ B))
          year metals categories st sd ct cn cur sb so L O := by
  constructor
  · intro hmem
    rw [AuctionFactory.available_auctions, List.mem_filter, h] at hmem
    simp at hmem
  · intro sel year metals categories st sd ct cn cur sb so L O
    rw [get_combined_data_eq, get_combined_data_eq]
    exact congrArg _
      (runSteps_flatten_filter (fetch_step_skip h year metals categories st sd ct cn cur) sel)

/-- Witness for C7: Aurora's store is missing; it is not among the available
auctions, and a combined query over `["Adalex", "Aurora"]` equals the same
query with Aurora filtered out of the selection. -/
theorem claim_C7_witness :
    "Aurora" ∉ AuctionFactory.available_auctions ⟨some [blankLot], none, none⟩
  ∧ AuctionFactory.get_combined_data ⟨some [blankLot], none, none⟩ ["Adalex", "Aurora"]
      none [] [] none none none none "RUB" "date_recent" "ASC" 5 0
      = AuctionFactory.get_combined_data ⟨some [blankLot], none, none⟩
        (["Adalex", "Aurora"].filter (fun n => n ≠ "Aurora"))
        none [] [] none none none none "RUB" "date_recent" "ASC" 5 0 :=
  ⟨(claim_C7_unavailable_source_inert ⟨some [blankLot], none, none⟩ "Aurora" rfl).1,
   (claim_C7_unavailable_source_inert ⟨some [blankLot], none, none⟩ "Aurora" rfl).2
     ["Adalex", "Aurora"] none [] [] none none none none "RUB" "date_recent" "ASC" 5 0⟩

/-- C8: the search normalizer returns the order-preserving sequence of
whitespace-separated tokens, each lowercased, with tokens shorter than 2
characters discarded (so empty or all-short input yields `[]`, which both
early-return branches of the code coincide with); in particular
`improve_search_query " ab  c " = ["ab"]`. -/
theorem claim_C8_normalizer :
    (∀ q : String, improve_search_query q
      = ((pySplitWs q).filter (fun w => 2 ≤ w.length)).map pyLower)
  ∧ improve_search_query " ab  c " = ["ab"] := by
  constructor
  · intro q
    unfold improve_search_query
    by_cases hq : q = ""
    · subst hq
      rfl
    · rw [if_neg hq]
      by_cases hw : (((pySplitWs q).filter (fun w => 2 ≤ w.length)).map pyLower).isEmpty
      · rw [if_pos hw]
        rw [List.isEmpty_iff] at hw
        exact hw.symm
      · rw [if_neg hw]
  · rfl

/-- C9: on Adalex (directory-backed), `get_lot_images` returns exactly the
`*.jpg` files of the lot's `image_dir` (as full paths under that directory),
sorted lexicographically (code-point order, `strLe`), and `[]` when the
`image_dir` field is absent, or the directory does not exist, or no file
matches; on Aurora (URL-backed), it returns the one-element list with the
stored `image_url`, and `[]` when that field is absent. -/
theorem claim_C9_lot_images (fs : Fs) (lot : Lot) (d : String) (files : List String)
    (u : String) :
    (lot.image_dir = none → AdalexAuction.get_lot_images fs lot = [])
  ∧ (lot.image_dir = some d → fs.lookup d = none →
      AdalexAuction.get_lot_images fs lot = [])
  ∧ (lot.image_dir = some d → d ≠ "" → fs.lookup d = some files →
      List.Perm (AdalexAuction.get_lot_images fs lot)
        ((files.filter globJpg).map (fun n => d ++ "/" ++ n))
      ∧ (AdalexAuction.get_lot_images fs lot).Chain' (fun a b => strLe a b = true))
  ∧ (lot.image_url = none → AuroraAuction.get_lot_images lot = [])
  ∧ (lot.image_url = some u → u ≠ "" → AuroraAuction.get_lot_images lot = [u]) := by
  refine ⟨?_, ?_, ?_, ?_, ?_⟩
  · intro h
    simp [AdalexAuction.get_lot_images, h]
  · intro h hl
    by_cases hd : d = ""
    · simp [AdalexAuction.get_lot_images, h, hd]
    · simp [AdalexAuction.get_lot_images, h, hd, hl]
  · intro h hd hl
    simp only [AdalexAuction.get_lot_images, h, if_neg hd, hl]
    by_cases himg : ((files.filter globJpg).map (fun n => d ++ "/" ++ n)).isEmpty
    · rw [if_pos himg]
      rw [List.isEmpty_iff] at himg
      rw [himg]
      exact ⟨List.Perm.refl _, List.chain'_nil⟩
    · rw [if_neg himg]
      refine ⟨sortLe_perm _ _, ?_⟩
      exact (pairwise_sortLe strLe_total strLe_trans _).chain'
  · intro h
    simp [AuroraAuction.get_lot_images, h]
  · intro h hu
    simp [AuroraAuction.get_lot_images, h, hu]

/-- Witness for C9: a concrete directory with files `b.jpg`, `a.jpg`, `x.png`,
`.h.jpg`: the three `.jpg`-suffixed files — the hidden `.h.jpg` among them,
since `Path.glob` matches dotfiles — come back sorted, `x.png` dropped; a
URL-backed lot yields its single URL. -/
theorem claim_C9_witness :
    List.Perm
      (AdalexAuction.get_lot_images [("data/adalex/images/lot_7",
        ["b.jpg", "a.jpg", "x.png", ".h.jpg"])]
        {blankLot with image_dir := some "data/adalex/images/lot_7"})
      ((["b.jpg", "a.jpg", "x.png", ".h.jpg"].filter globJpg).map
        (fun n => "data/adalex/images/lot_7" ++ "/" ++ n))
  ∧ (AdalexAuction.get_lot_images [("data/adalex/images/lot_7",
        ["b.jpg", "a.jpg", "x.png", ".h.jpg"])]
        {blankLot with image_dir := some "data/adalex/images/lot_7"}).Chain'
      (fun a b => strLe a b = true)
  ∧ AuroraAuction.get_lot_images
      {blankLot with image_url := some "https://aurora.example/1.jpg"}
      = ["https://aurora.example/1.jpg"] :=
  ⟨(claim_C9_lot_images [("data/adalex/images/lot_7",
        ["b.jpg", "a.jpg", "x.png", ".h.jpg"])]
      {blankLot with image_dir := some "data/adalex/images/lot_7"}
      "data/adalex/images/lot_7" ["b.jpg", "a.jpg", "x.png", ".h.jpg"]
      "https://aurora.example/1.jpg").2.2.1 rfl (by decide) rfl |>.1,
   (claim_C9_lot_images [("data/adalex/images/lot_7",
        ["b.jpg", "a.jpg", "x.png", ".h.jpg"])]
      {blankLot with image_dir := some "data/adalex/images/lot_7"}
      "data/adalex/images/lot_7" ["b.jpg", "a.jpg", "x.png", ".h.jpg"]
      "https://aurora.example/1.jpg").2.2.1 rfl (by decide) rfl |>.2,
   (claim_C9_lot_images [] {blankLot with image_url := some "https://aurora.example/1.jpg"}
      "" [] "https://aurora.example/1.jpg").2.2.2.2 rfl (by decide)⟩

/-- C10 (implicit): the per-source adapters ignore `sort_by` and `sort_order`
entirely — for a fixed filter spec any two values of those parameters give the
identical row sequence (no ORDER BY is emitted; rows come back in stored
order) — and sorting happens only in the aggregator: `get_combined_data` is
exactly the per-source default-order concatenation followed by the
`sortCombined` dispatch and the slice. -/
theorem claim_C10_adapters_ignore_sort :
    (∀ (db : Option (List Lot)) (year : Option Int) (metals categories : List String)
       (st sd : Option String) (cur sb1 so1 sb2 so2 : String) (lim : Option Nat) (off : Nat),
       AdalexAuction.get_filtered_data db year metals categories st sd cur sb1 so1 lim off
         = AdalexAuction.get_filtered_data db year metals categories st sd cur sb2 so2 lim off)
  ∧ (∀ (db : Option Table) (year : Option Int) (metals categories : List String)
       (st sd ct cn : Option String) (cur sb1 so1 sb2 so2 : String)
       (lim : Option Nat) (off : Nat),
       AuroraAuction.get_filtered_data db year metals categories st sd ct cn
         cur sb1 so1 lim off
         = AuroraAuction.get_filtered_data db year metals categories st sd ct cn
           cur sb2 so2 lim off)
  ∧ (∀ (db : Option Table) (year : Option Int) (metals categories : List String)
       (st sd ct cn : Option String) (cur sb1 so1 sb2 so2 : String)
       (lim : Option Nat) (off : Nat),
       RedkieMonetyAuction.get_filtered_data db year metals categories st sd ct cn
         cur sb1 so1 lim off
         = RedkieMonetyAuction.get_filtered_data db year metals categories st sd ct cn
           cur sb2 so2 lim off)
  ∧ (∀ (f : Factory) (sel : List String) (year : Option Int)
       (metals categories : List String) (st sd ct cn : Option String)
       (cur sb so : String) (L O : Nat),
       AuctionFactory.get_combined_data f sel year metals categories st sd ct cn
         cur sb so L O
         = (AuctionFactory.combinedDefaultOrder f sel year metals categories
             st sd ct cn cur).map
             (fun l => ((AuctionFactory.sortCombined sb cur l).drop O).take L)) :=
  ⟨fun _ _ _ _ _ _ _ _ _ _ _ _ _ => rfl,
   fun _ _ _ _ _ _ _ _ _ _ _ _ _ _ _ => rfl,
   fun _ _ _ _ _ _ _ _ _ _ _ _ _ _ _ => rfl,
   fun f sel year metals categories st sd ct cn cur sb so L O =>
     get_combined_data_eq f sel year metals categories st sd ct cn cur sb so L O⟩

end Moneta
